import Mathlib

/-
Verification of the desktop-dictate streaming transcription pipeline.

The embedding follows src/src-tauri/src/soniox/mod.rs (the transcription
event loop and token diffing) and src/src-tauri/src/audio/mod.rs (the
capture thread and its supervision).  Rust strings are modeled as their
character sequences (List Char); slicing a string at the byte length of a
prefix, as the Rust code does with the range starting at typed_text.len(),
lands on the boundary of that prefix, so it coincides with dropping that
many characters.
-/

namespace DD

/-- Rust String values, modeled as character sequences. -/
abbrev Str := List Char

/-- One recognition token of an inbound message
(struct Token in soniox/mod.rs). -/
structure Token where
  text : Str
  is_final : Bool
  speaker : Option Int := none
  language : Option Str := none
deriving DecidableEq

/-- One parsed inbound message (struct SonioxResponse in soniox/mod.rs). -/
structure SonioxResponse where
  error_code : Option Str := none
  error_message : Option Str := none
  tokens : Option (List Token) := none
  finished : Option Bool := none
deriving DecidableEq

/-- Rust str::trim: remove leading and trailing whitespace. -/
def trimStr (s : Str) : Str :=
  ((s.dropWhile Char.isWhitespace).reverse.dropWhile Char.isWhitespace).reverse

/-- fn is_control_token in soniox/mod.rs: the trimmed text starts with
the character < and ends with the character >. -/
def is_control_token (text : Str) : Bool :=
  let trimmed := trimStr text
  (trimmed.head? == some '<') && (trimmed.getLast? == some '>')

/-- The token filter of the response loop (soniox/mod.rs lines 236-246):
keep a token when its text is non-empty and is not a control token. -/
def keepToken (t : Token) : Bool :=
  !t.text.isEmpty && !is_control_token t.text

/-- The final partition, in arrival order. -/
def finalTokens (ts : List Token) : List Token :=
  ts.filter fun t => keepToken t && t.is_final

/-- The non-final partition, in arrival order. -/
def nonFinalTokens (ts : List Token) : List Token :=
  ts.filter fun t => keepToken t && !t.is_final

/-- current_final_text: concatenation of the texts of the final tokens. -/
def currentFinalText (ts : List Token) : Str :=
  ((finalTokens ts).map Token.text).flatten

/-- Concatenation of the texts of the non-final tokens. -/
def nonFinalText (ts : List Token) : Str :=
  ((nonFinalTokens ts).map Token.text).flatten

/-- Everything the per-response token processing produces: the computed
delta (text_to_type), the updated typed_text and accumulated_text, the
preview string, the two optional emitted events and the optional request
queued to the typing worker. -/
structure ProcOut where
  delta : Str
  newTypedText : Str
  newAccumulatedText : Str
  previewText : Str
  transcribedEvent : Option Str
  previewEvent : Option Str
  insertion : Option Str
deriving DecidableEq

/-- The token-processing section of the loop body
(soniox/mod.rs lines 232-294), for one token list of a parsed response
with no error, given the recorded typed_text and accumulated_text. -/
def processTokens (typed_text accumulated_text : Str) (ts : List Token) :
    ProcOut :=
  let current_final_text := currentFinalText ts
  let text_to_type :=
    if typed_text.isPrefixOf current_final_text then
      current_final_text.drop typed_text.length
    else if typed_text.isEmpty then
      current_final_text
    else
      current_final_text
  let hasDelta := !text_to_type.isEmpty
  let preview_text := current_final_text ++ nonFinalText ts
  { delta := text_to_type
    newTypedText := if hasDelta then current_final_text else typed_text
    newAccumulatedText :=
      if hasDelta then accumulated_text ++ text_to_type else accumulated_text
    previewText := preview_text
    transcribedEvent := if hasDelta then some text_to_type else none
    previewEvent := if !preview_text.isEmpty then some preview_text else none
    insertion := if hasDelta then some text_to_type else none }

/-- Iterated diffing over a sequence of token lists, returning the final
typed_text, the final accumulated_text and the list of computed deltas. -/
def runDiff (typed_text accumulated_text : Str) :
    List (List Token) → Str × Str × List Str
  | [] => (typed_text, accumulated_text, [])
  | ts :: rest =>
      let o := processTokens typed_text accumulated_text ts
      let r := runDiff o.newTypedText o.newAccumulatedText rest
      (r.1, r.2.1, o.delta :: r.2.2)

/-- Each entry is a strict extension of the typed_text recorded after the
previous entry was processed. -/
def chainExtends (typed_text : Str) : List (List Token) → Bool
  | [] => true
  | ts :: rest =>
      typed_text.isPrefixOf (currentFinalText ts)
        && !(currentFinalText ts == typed_text)
        && chainExtends (processTokens typed_text [] ts).newTypedText rest

/-- Events the loop can emit through the app handle. -/
inductive EmittedEvent where
  | transcribedText (s : Str)
  | previewText (s : Str)
  | transcriptionError (s : Str)
deriving DecidableEq

/-- The finalize timeout of soniox/mod.rs: Duration::from_secs(5). -/
def FINISH_TIMEOUT_SECS : Nat := 5

/-- The mutable state of the transcription loop in connect_and_transcribe.
is_transcribing means the loop is still live (a break is modeled by
clearing it, since both reach the post-loop code identically).
endMarkersSent counts the sends of the empty text message, timerArms the
resets of the finish_timeout sleep, and timerDurationSecs records the
duration the timer was last armed with. -/
structure LoopState where
  typed_text : Str
  accumulated_text : Str
  is_transcribing : Bool
  audio_channel_closed : Bool
  end_signal_sent : Bool
  session_finished : Bool
  endMarkersSent : Nat
  timerArms : Nat
  timerDurationSecs : Option Nat
  audioForwarded : Nat
  emitted : List EmittedEvent
  insertions : List Str
deriving DecidableEq

/-- State at loop entry (soniox/mod.rs lines 114-121). -/
def initLoopState : LoopState :=
  { typed_text := []
    accumulated_text := []
    is_transcribing := true
    audio_channel_closed := false
    end_signal_sent := false
    session_finished := false
    endMarkersSent := 0
    timerArms := 0
    timerDurationSecs := none
    audioForwarded := 0
    emitted := []
    insertions := [] }

/-- Send the empty text end marker and arm the 5 second finalize timer
(the shared body of lines 164-170 and 197-201). -/
def sendEndMarker (s : LoopState) : LoopState :=
  { s with
    end_signal_sent := true
    endMarkersSent := s.endMarkersSent + 1
    timerArms := s.timerArms + 1
    timerDurationSecs := some FINISH_TIMEOUT_SECS }

/-- Top of each loop iteration (lines 160-171): read the stop signal and,
when set and the end signal was not sent yet, send the end marker. -/
def markerPhase (should_stop : Bool) (s : LoopState) : LoopState :=
  if should_stop && !s.end_signal_sent then sendEndMarker s else s

/-- One outcome of ws_read.next(): a text message (none models a body
that fails to parse and is dropped), a close frame, a read error, the
end of the stream, or any other frame. -/
inductive WsEvent where
  | msg (resp : Option SonioxResponse)
  | close
  | readErr (e : Str)
  | ended
  | other
deriving DecidableEq

/-- The branch of the select that fires in one iteration. -/
inductive LoopEvent where
  | audioChunk
  | audioClosed
  | timeout
  | ws (w : WsEvent)
deriving DecidableEq

/-- One loop iteration seen from outside: the value the stop signal was
read at, and the select branch that fired. -/
structure Step where
  should_stop : Bool
  ev : LoopEvent
deriving DecidableEq

/-- Guard of the finalize-timeout select arm (line 209). -/
def timeoutEnabled (s : LoopState) : Bool :=
  s.end_signal_sent && !s.session_finished

/-- Processing of one parsed text message (lines 223-302): a server
error record emits a transcription-error event and breaks; otherwise the
tokens are diffed, events and the typing request are produced, and the
finished flag is latched. -/
def wsTextStep (resp : SonioxResponse) (s : LoopState) : LoopState :=
  match resp.error_code with
  | some code =>
      { s with
        emitted := s.emitted ++
          [EmittedEvent.transcriptionError
            (code ++ " - ".toList ++ (resp.error_message.getD []))]
        is_transcribing := false }
  | none =>
      let o := processTokens s.typed_text s.accumulated_text
                  (resp.tokens.getD [])
      let s2 := { s with
        typed_text := o.newTypedText
        accumulated_text := o.newAccumulatedText
        insertions := s.insertions ++ o.insertion.toList
        emitted := s.emitted
          ++ (o.transcribedEvent.map EmittedEvent.transcribedText).toList
          ++ (o.previewEvent.map EmittedEvent.previewText).toList }
      if resp.finished == some true then
        { s2 with session_finished := true }
      else s2

/-- The select block (lines 179-322).  The audio arms carry the guard
that the channel is still open and the timeout arm carries the guard
end_signal_sent and not session_finished; a branch whose guard is false
cannot fire and is modeled as the identity. -/
def selectStep (ev : LoopEvent) (s : LoopState) : LoopState :=
  match ev with
  | .audioChunk =>
      if s.audio_channel_closed then s
      else { s with audioForwarded := s.audioForwarded + 1 }
  | .audioClosed =>
      if s.audio_channel_closed then s
      else
        let s1 := if !s.end_signal_sent then sendEndMarker s else s
        { s1 with audio_channel_closed := true }
  | .timeout =>
      if timeoutEnabled s then { s with is_transcribing := false } else s
  | .ws (.msg none) => s
  | .ws (.msg (some resp)) => wsTextStep resp s
  | .ws .close => { s with is_transcribing := false }
  | .ws (.readErr e) =>
      { s with emitted := s.emitted ++ [EmittedEvent.transcriptionError e] }
  | .ws .ended => { s with is_transcribing := false }
  | .ws .other => s

/-- The while loop (lines 158-323): while is_transcribing, run the
marker phase, break when session_finished, then run the select branch. -/
def run (s : LoopState) : List Step → LoopState
  | [] => s
  | i :: rest =>
      if !s.is_transcribing then s
      else if (markerPhase i.should_stop s).session_finished then
        markerPhase i.should_stop s
      else run (selectStep i.ev (markerPhase i.should_stop s)) rest

/-- A trigger occurred during the run: some live iteration read the stop
signal as true, or the audio-closed branch fired with the channel still
open.  The recursion mirrors run. -/
def hasTrigger (s : LoopState) : List Step → Bool
  | [] => false
  | i :: rest =>
      if !s.is_transcribing then false
      else
        i.should_stop
          || (!(markerPhase i.should_stop s).session_finished
              && ((i.ev == LoopEvent.audioClosed
                    && !(markerPhase i.should_stop s).audio_channel_closed)
                  || hasTrigger
                      (selectStep i.ev (markerPhase i.should_stop s)) rest))

/-- connect_and_transcribe after the handshake: a connection failure is
returned as the error before the loop runs; once connected the loop runs
and the function returns Ok. -/
def connectAndTranscribe (connectErr : Option Str) (steps : List Step) :
    Except Str LoopState :=
  match connectErr with
  | some e => Except.error ("WebSocket connection failed: ".toList ++ e)
  | none => Except.ok (run initLoopState steps)

/-- Sample formats distinguished by audio/mod.rs (lines 59-128). -/
inductive SampleFormat where
  | f32
  | i16
  | u16
  | other
deriving DecidableEq

/-- The environment start_audio_capture runs against: device presence,
the default-config lookup, the native sample format, and the outcomes of
building and starting the stream. -/
structure AudioEnv where
  hasInputDevice : Bool
  defaultConfigErr : Option Str
  sampleFormat : SampleFormat
  buildErr : Option Str
  playErr : Option Str
deriving DecidableEq

/-- The value the spawned capture thread closure returns
(audio/mod.rs lines 56-153). -/
def audioThreadResult (env : AudioEnv) : Except Str Unit :=
  match env.sampleFormat with
  | .other => Except.error "Unsupported sample format".toList
  | _ =>
      match env.buildErr with
      | some e =>
          Except.error ("Failed to build audio stream: ".toList ++ e)
      | none =>
          match env.playErr with
          | some e =>
              Except.error ("Failed to start audio stream: ".toList ++ e)
          | none => Except.ok ()

/-- What a call to start_audio_capture does: its returned result, whether
connect_and_transcribe was invoked, and the value the capture thread
returned (some only when the thread was spawned).  The join site only
logs a panic, so the thread value never reaches the result. -/
structure CaptureOutcome where
  result : Except Str LoopState
  connectAttempted : Bool
  threadResult : Option (Except Str Unit)

/-- start_audio_capture (audio/mod.rs lines 12-167): fail before spawning
on a missing device or missing default config; otherwise spawn the
capture thread, run the transcription, and return the transcription
result. -/
def start_audio_capture (env : AudioEnv) (connectErr : Option Str)
    (steps : List Step) : CaptureOutcome :=
  if !env.hasInputDevice then
    { result := Except.error "No input device available".toList
      connectAttempted := false
      threadResult := none }
  else
    match env.defaultConfigErr with
    | some e =>
        { result := Except.error ("No default input config: ".toList ++ e)
          connectAttempted := false
          threadResult := none }
    | none =>
        { result := connectAndTranscribe connectErr steps
          connectAttempted := true
          threadResult := some (audioThreadResult env) }

/-- The bookkeeping invariant tying the end marker and the finalize timer
to the end_signal_sent flag. -/
def MarkerInv (s : LoopState) : Prop :=
  s.endMarkersSent ≤ 1
  ∧ s.timerArms = s.endMarkersSent
  ∧ (s.end_signal_sent = true ↔ s.endMarkersSent = 1)
  ∧ (s.audio_channel_closed = true → s.end_signal_sent = true)
  ∧ (s.end_signal_sent = true →
      s.timerDurationSecs = some FINISH_TIMEOUT_SECS)

/-! Helper lemmas. -/

theorem filter_drop_middle (p : Token → Bool) (t : Token)
    (l1 l2 : List Token) (h : p t = false) :
    (l1 ++ t :: l2).filter p = (l1 ++ l2).filter p := by
  simp [List.filter_append, List.filter_cons, h]

theorem processTokens_congr (typed acc : Str) (ts ts2 : List Token)
    (h1 : finalTokens ts = finalTokens ts2)
    (h2 : nonFinalTokens ts = nonFinalTokens ts2) :
    processTokens typed acc ts = processTokens typed acc ts2 := by
  simp [processTokens, currentFinalText, nonFinalText, h1, h2]

theorem keepToken_of_mem_final {ts : List Token} {u : Token}
    (h : u ∈ finalTokens ts) : keepToken u = true := by
  have hp := List.of_mem_filter h
  simp only [Bool.and_eq_true] at hp
  exact hp.1

theorem keepToken_of_mem_nonFinal {ts : List Token} {u : Token}
    (h : u ∈ nonFinalTokens ts) : keepToken u = true := by
  have hp := List.of_mem_filter h
  simp only [Bool.and_eq_true] at hp
  exact hp.1

theorem keepToken_text_ne_nil {u : Token} (h : keepToken u = true) :
    u.text ≠ [] := by
  intro hnil
  simp [keepToken, hnil] at h

theorem keepToken_not_control {u : Token} (h : keepToken u = true) :
    is_control_token u.text = false := by
  simp only [keepToken, Bool.and_eq_true, Bool.not_eq_true'] at h
  exact h.2

/-- C1: for every token list of a parsed response and every previously
recorded typed_text, with current_final_text the concatenation of the
filtered final-token texts: if current_final_text starts with typed_text
the delta is the suffix beyond that prefix; if typed_text was empty the
delta is the whole current_final_text; otherwise the delta is the entire
current_final_text. -/
theorem delta_computation_cases (typed acc : Str) (ts : List Token) :
    (typed.isPrefixOf (currentFinalText ts) = true →
        (processTokens typed acc ts).delta
          = (currentFinalText ts).drop typed.length)
    ∧ (typed = [] →
        (processTokens typed acc ts).delta = currentFinalText ts)
    ∧ (typed.isPrefixOf (currentFinalText ts) = false →
        (processTokens typed acc ts).delta = currentFinalText ts) := by
  refine ⟨?_, ?_, ?_⟩ <;> intro h
  · simp [processTokens, h]
  · subst h
    simp [processTokens, List.isPrefixOf]
  · simp [processTokens, h]

/-- C1 witness: the theorem applied at typed_text He and the single
final token Hello. -/
theorem delta_computation_cases_witness :
    "He".toList.isPrefixOf
        (currentFinalText [Token.mk "Hello".toList true none none]) = true
    ∧ (processTokens "He".toList []
        [Token.mk "Hello".toList true none none]).delta
      = (currentFinalText [Token.mk "Hello".toList true none none]).drop
          "He".toList.length :=
  ⟨by decide,
   (delta_computation_cases "He".toList []
      [Token.mk "Hello".toList true none none]).1 (by decide)⟩

/-- C2 counterexample: with recorded typed_text a and a response with no
tokens, the computed delta is empty and typed_text is left at a; it is
not replaced by the empty current_final_text. -/
theorem finalized_text_retained_on_empty_delta :
    currentFinalText ([] : List Token) = []
    ∧ (processTokens "a".toList "a".toList []).delta = []
    ∧ (processTokens "a".toList "a".toList []).newTypedText = "a".toList
    ∧ (processTokens "a".toList "a".toList []).newTypedText
        ≠ currentFinalText ([] : List Token) := by decide

/-- C2 amended: typed_text is replaced by current_final_text exactly when
the computed delta is non-empty; when the delta is empty the recorded
typed_text is left unchanged. -/
theorem finalized_text_replaced_iff_delta_nonempty (typed acc : Str)
    (ts : List Token) :
    ((processTokens typed acc ts).delta ≠ [] →
        (processTokens typed acc ts).newTypedText = currentFinalText ts)
    ∧ ((processTokens typed acc ts).delta = [] →
        (processTokens typed acc ts).newTypedText = typed) := by
  constructor <;> intro h <;>
    simp only [processTokens] at h ⊢ <;>
    split at h <;> simp_all

/-- C2 amended witness: the theorem applied at an empty prior typed_text
and the single final token Hi. -/
theorem finalized_text_replaced_iff_delta_nonempty_witness :
    (processTokens [] [] [Token.mk "Hi".toList true none none]).newTypedText
      = currentFinalText [Token.mk "Hi".toList true none none] :=
  (finalized_text_replaced_iff_delta_nonempty [] []
      [Token.mk "Hi".toList true none none]).1 (by decide)

/-- C5: the preview equals current_final_text followed by the non-final
token texts in arrival order, depends on the response alone, the preview
event fires exactly when the preview is non-empty, and an empty delta
yields neither an insertion request nor a delta event. -/
theorem preview_and_event_emission (typed acc : Str) (ts : List Token) :
    ((processTokens typed acc ts).previewText
        = currentFinalText ts ++ nonFinalText ts)
    ∧ ((processTokens typed acc ts).previewEvent
          = some (processTokens typed acc ts).previewText
        ↔ (processTokens typed acc ts).previewText ≠ [])
    ∧ (∀ typed2 acc2 : Str,
        (processTokens typed2 acc2 ts).previewText
          = (processTokens typed acc ts).previewText)
    ∧ ((processTokens typed acc ts).delta = [] →
        (processTokens typed acc ts).insertion = none
        ∧ (processTokens typed acc ts).transcribedEvent = none) := by
  refine ⟨rfl, ?_, fun _ _ => rfl, ?_⟩
  · simp only [processTokens]
    generalize currentFinalText ts ++ nonFinalText ts = pt
    cases pt <;> simp
  · intro h
    simp only [processTokens] at h ⊢
    split at h <;> simp_all

/-- C5 witness: the theorem applied at an empty prior state and one
non-final token, where the delta is empty. -/
theorem preview_and_event_emission_witness :
    (processTokens [] [] [Token.mk "Hel".toList false none none]).insertion
        = none
    ∧ (processTokens [] []
        [Token.mk "Hel".toList false none none]).transcribedEvent = none :=
  (preview_and_event_emission [] []
      [Token.mk "Hel".toList false none none]).2.2.2 (by decide)

/-- C10: a token whose text is empty is excluded from both partitions,
every token kept in a partition has non-empty text, and removing the
empty-text token from the list leaves the whole processing of the
response unchanged. -/
theorem empty_text_tokens_excluded (typed acc : Str) (t : Token)
    (l1 l2 : List Token) (he : t.text = []) :
    finalTokens (l1 ++ t :: l2) = finalTokens (l1 ++ l2)
    ∧ nonFinalTokens (l1 ++ t :: l2) = nonFinalTokens (l1 ++ l2)
    ∧ (∀ u ∈ finalTokens (l1 ++ t :: l2), u.text ≠ [])
    ∧ (∀ u ∈ nonFinalTokens (l1 ++ t :: l2), u.text ≠ [])
    ∧ processTokens typed acc (l1 ++ t :: l2)
        = processTokens typed acc (l1 ++ l2) := by
  have hk : keepToken t = false := by simp [keepToken, he]
  have hf : finalTokens (l1 ++ t :: l2) = finalTokens (l1 ++ l2) :=
    filter_drop_middle _ t l1 l2 (by simp [hk])
  have hn : nonFinalTokens (l1 ++ t :: l2) = nonFinalTokens (l1 ++ l2) :=
    filter_drop_middle _ t l1 l2 (by simp [hk])
  exact ⟨hf, hn,
    fun u hu => keepToken_text_ne_nil (keepToken_of_mem_final hu),
    fun u hu => keepToken_text_ne_nil (keepToken_of_mem_nonFinal hu),
    processTokens_congr typed acc _ _ hf hn⟩

/-- C10 witness: the theorem applied at a concrete empty-text token next
to the final token a. -/
theorem empty_text_tokens_excluded_witness :
    processTokens [] []
        ([] ++ Token.mk [] true none none :: [Token.mk "a".toList true none none])
      = processTokens [] [] ([] ++ [Token.mk "a".toList true none none]) :=
  (empty_text_tokens_excluded [] [] (Token.mk [] true none none) []
      [Token.mk "a".toList true none none] (by decide)).2.2.2.2

/-- C4 counterexample: in a response holding the control token with text
the marker string together with the non-control tokens holding the two
halves of that marker, the computed delta is exactly the control-marker
text, so the marker text does appear in a delta. -/
theorem control_marker_text_in_delta :
    is_control_token "<end>".toList = true
    ∧ (processTokens [] []
        [Token.mk "<end>".toList true none none,
         Token.mk "<".toList true none none,
         Token.mk "end>".toList true none none]).delta
      = "<end>".toList := by decide

/-- C4 amended: control-marker tokens are discarded before any text is
assembled: neither partition retains a control token, and removing a
control-marker token from the list leaves the processing of the response
unchanged; the marker text can nevertheless reappear inside a delta or
preview as a substring formed by adjacent non-control tokens. -/
theorem control_tokens_discarded (typed acc : Str) (t : Token)
    (l1 l2 : List Token) (hc : is_control_token t.text = true) :
    finalTokens (l1 ++ t :: l2) = finalTokens (l1 ++ l2)
    ∧ nonFinalTokens (l1 ++ t :: l2) = nonFinalTokens (l1 ++ l2)
    ∧ (∀ u ∈ finalTokens (l1 ++ t :: l2), is_control_token u.text = false)
    ∧ (∀ u ∈ nonFinalTokens (l1 ++ t :: l2),
        is_control_token u.text = false)
    ∧ processTokens typed acc (l1 ++ t :: l2)
        = processTokens typed acc (l1 ++ l2) := by
  have hk : keepToken t = false := by simp [keepToken, hc]
  have hf : finalTokens (l1 ++ t :: l2) = finalTokens (l1 ++ l2) :=
    filter_drop_middle _ t l1 l2 (by simp [hk])
  have hn : nonFinalTokens (l1 ++ t :: l2) = nonFinalTokens (l1 ++ l2) :=
    filter_drop_middle _ t l1 l2 (by simp [hk])
  exact ⟨hf, hn,
    fun u hu => keepToken_not_control (keepToken_of_mem_final hu),
    fun u hu => keepToken_not_control (keepToken_of_mem_nonFinal hu),
    processTokens_congr typed acc _ _ hf hn⟩

/-- C4 amended witness: the theorem applied at the control token with
marker text placed before the final token hi. -/
theorem control_tokens_discarded_witness :
    processTokens [] []
        ([] ++ Token.mk "<end>".toList true none none
            :: [Token.mk "hi".toList true none none])
      = processTokens [] [] ([] ++ [Token.mk "hi".toList true none none]) :=
  (control_tokens_discarded [] [] (Token.mk "<end>".toList true none none)
      [] [Token.mk "hi".toList true none none] (by decide)).2.2.2.2

theorem runDiff_chain (rs : List (List Token)) :
    ∀ typed acc : Str, chainExtends typed rs = true →
      (runDiff typed acc rs).1
          = typed ++ ((runDiff typed acc rs).2.2).flatten
      ∧ (runDiff typed acc rs).2.1
          = acc ++ ((runDiff typed acc rs).2.2).flatten := by
  induction rs with
  | nil => intro typed acc _; simp [runDiff]
  | cons ts rest ih =>
      intro typed acc h
      simp only [chainExtends, Bool.and_eq_true] at h
      obtain ⟨⟨hpre, hne⟩, hrest⟩ := h
      obtain ⟨u, hu⟩ := List.isPrefixOf_iff_prefix.mp hpre
      have hneq : currentFinalText ts ≠ typed := by
        intro h0
        rw [h0] at hne
        simp at hne
      have hune : u ≠ [] := by
        intro h0
        exact hneq (by rw [← hu, h0, List.append_nil])
      have huE : u.isEmpty = false := by
        cases u with
        | nil => exact absurd rfl hune
        | cons a l => rfl
      have hdrop : (currentFinalText ts).drop typed.length = u := by
        rw [← hu]
        exact List.drop_left typed u
      have h1 : (processTokens typed acc ts).delta = u := by
        simp [processTokens, hpre, hdrop]
      have h2 : ∀ acc2 : Str,
          (processTokens typed acc2 ts).newTypedText
            = currentFinalText ts := by
        intro acc2
        simp [processTokens, hpre, hdrop, huE]
      have h3 : (processTokens typed acc ts).newAccumulatedText
          = acc ++ u := by
        simp [processTokens, hpre, hdrop, huE]
      have hrest2 : chainExtends (currentFinalText ts) rest = true := by
        rw [← h2 []]
        exact hrest
      obtain ⟨ihA, ihB⟩ :=
        ih (currentFinalText ts) (acc ++ u) hrest2
      simp only [runDiff, h1, h2, h3]
      rw [ihA, ihB, ← hu]
      constructor <;> simp [List.append_assoc]

/-- C3: for every sequence of responses in which each final-token
concatenation strictly extends the typed_text recorded after the
previous step, the deltas concatenated in order equal the final
typed_text and equal the final accumulated_text, starting from the
empty session state. -/
theorem chain_deltas_concat (rs : List (List Token))
    (h : chainExtends [] rs = true) :
    ((runDiff [] [] rs).2.2).flatten = (runDiff [] [] rs).1
    ∧ ((runDiff [] [] rs).2.2).flatten = (runDiff [] [] rs).2.1 := by
  obtain ⟨h1, h2⟩ := runDiff_chain rs [] [] h
  simp only [List.nil_append] at h1 h2
  exact ⟨h1.symm, h2.symm⟩

/-- C3 witness: the theorem applied to the two-response chain Hello then
Hello world. -/
theorem chain_deltas_concat_witness :
    ((runDiff [] [] [[Token.mk "Hello".toList true none none],
        [Token.mk "Hello".toList true none none,
         Token.mk " world".toList true none none]]).2.2).flatten
      = (runDiff [] [] [[Token.mk "Hello".toList true none none],
          [Token.mk "Hello".toList true none none,
           Token.mk " world".toList true none none]]).1 :=
  (chain_deltas_concat [[Token.mk "Hello".toList true none none],
      [Token.mk "Hello".toList true none none,
       Token.mk " world".toList true none none]] (by decide)).1

theorem run_halted (s : LoopState) (steps : List Step)
    (h : s.is_transcribing = false) : run s steps = s := by
  cases steps with
  | nil => rfl
  | cons i rest => simp [run, h]

theorem wsTextStep_marker_fields (r : SonioxResponse) (s : LoopState) :
    (wsTextStep r s).endMarkersSent = s.endMarkersSent
    ∧ (wsTextStep r s).timerArms = s.timerArms
    ∧ (wsTextStep r s).end_signal_sent = s.end_signal_sent
    ∧ (wsTextStep r s).audio_channel_closed = s.audio_channel_closed
    ∧ (wsTextStep r s).timerDurationSecs = s.timerDurationSecs := by
  unfold wsTextStep
  cases r.error_code with
  | none => simp only []; split <;> simp
  | some c => simp

theorem markerInv_sendEndMarker (s : LoopState)
    (h0 : s.end_signal_sent = false) (h : MarkerInv s) :
    MarkerInv (sendEndMarker s) := by
  obtain ⟨a, b, c, d, e⟩ := h
  have hz : s.endMarkersSent = 0 := by
    rcases Nat.eq_or_lt_of_le a with h1 | h1
    · rw [c.mpr h1] at h0
      exact absurd h0 (by simp)
    · omega
  refine ⟨?_, ?_, ?_, ?_, ?_⟩ <;> simp [sendEndMarker, hz, b, d]

theorem markerInv_markerPhase (b : Bool) (s : LoopState)
    (h : MarkerInv s) : MarkerInv (markerPhase b s) := by
  unfold markerPhase
  split
  · next hc =>
      have h0 : s.end_signal_sent = false := by
        simp only [Bool.and_eq_true, Bool.not_eq_true'] at hc
        exact hc.2
      exact markerInv_sendEndMarker s h0 h
  · exact h

theorem markerInv_selectStep (ev : LoopEvent) (s : LoopState)
    (h : MarkerInv s) : MarkerInv (selectStep ev s) := by
  obtain ⟨a, b, c, d, e⟩ := h
  cases ev with
  | audioChunk =>
      simp only [selectStep]
      split
      · exact ⟨a, b, c, d, e⟩
      · exact ⟨a, b, c, d, e⟩
  | audioClosed =>
      simp only [selectStep]
      split
      · exact ⟨a, b, c, d, e⟩
      · split
        · next hns =>
            have h0 : s.end_signal_sent = false := by
              simpa using hns
            obtain ⟨a2, b2, c2, d2, e2⟩ :=
              markerInv_sendEndMarker s h0 ⟨a, b, c, d, e⟩
            exact ⟨a2, b2, c2, fun _ => rfl, e2⟩
        · next hns =>
            have h1 : s.end_signal_sent = true := by
              simpa using hns
            exact ⟨a, b, c, fun _ => h1, e⟩
  | timeout =>
      simp only [selectStep]
      split
      · exact ⟨a, b, c, d, e⟩
      · exact ⟨a, b, c, d, e⟩
  | ws w =>
      cases w with
      | msg o =>
          cases o with
          | none => exact ⟨a, b, c, d, e⟩
          | some r =>
              obtain ⟨f1, f2, f3, f4, f5⟩ := wsTextStep_marker_fields r s
              simp only [selectStep]
              refine ⟨?_, ?_, ?_, ?_, ?_⟩
              · rw [f1]; exact a
              · rw [f2, f1]; exact b
              · rw [f3, f1]; exact c
              · rw [f4, f3]; exact d
              · rw [f3, f5]; exact e
      | close => exact ⟨a, b, c, d, e⟩
      | readErr msg => exact ⟨a, b, c, d, e⟩
      | ended => exact ⟨a, b, c, d, e⟩
      | other => exact ⟨a, b, c, d, e⟩

theorem markerInv_run (steps : List Step) :
    ∀ s : LoopState, MarkerInv s → MarkerInv (run s steps) := by
  induction steps with
  | nil => intro s h; exact h
  | cons i rest ih =>
      intro s h
      unfold run
      split
      · exact h
      · split
        · exact markerInv_markerPhase i.should_stop s h
        · exact ih _ (markerInv_selectStep i.ev _
            (markerInv_markerPhase i.should_stop s h))

theorem markerInv_init : MarkerInv initLoopState := by
  refine ⟨?_, ?_, ?_, ?_, ?_⟩ <;> simp [initLoopState]

theorem end_signal_mono_markerPhase (b : Bool) (s : LoopState)
    (h : s.end_signal_sent = true) :
    (markerPhase b s).end_signal_sent = true := by
  unfold markerPhase
  split
  · rfl
  · exact h

theorem markerPhase_true_sets (s : LoopState) :
    (markerPhase true s).end_signal_sent = true := by
  unfold markerPhase
  cases h : s.end_signal_sent <;> simp [h, sendEndMarker]

theorem end_signal_mono_selectStep (ev : LoopEvent) (s : LoopState)
    (h : s.end_signal_sent = true) :
    (selectStep ev s).end_signal_sent = true := by
  cases ev with
  | audioChunk => simp only [selectStep]; split <;> exact h
  | audioClosed =>
      simp only [selectStep]
      split
      · exact h
      · split
        · rfl
        · exact h
  | timeout => simp only [selectStep]; split <;> exact h
  | ws w =>
      cases w with
      | msg o =>
          cases o with
          | none => exact h
          | some r =>
              simp only [selectStep]
              rw [(wsTextStep_marker_fields r s).2.2.1]
              exact h
      | close => exact h
      | readErr msg => exact h
      | ended => exact h
      | other => exact h

theorem end_signal_mono_run (steps : List Step) :
    ∀ s : LoopState, s.end_signal_sent = true →
      (run s steps).end_signal_sent = true := by
  induction steps with
  | nil => intro s h; exact h
  | cons i rest ih =>
      intro s h
      unfold run
      split
      · exact h
      · split
        · exact end_signal_mono_markerPhase i.should_stop s h
        · exact ih _ (end_signal_mono_selectStep i.ev _
            (end_signal_mono_markerPhase i.should_stop s h))

theorem audioClosed_sets_end_signal (s : LoopState)
    (h : s.audio_channel_closed = false) :
    (selectStep LoopEvent.audioClosed s).end_signal_sent = true := by
  simp only [selectStep]
  split
  · next hcl => rw [h] at hcl; exact absurd hcl (by simp)
  · split
    · rfl
    · next hns => simpa using hns

theorem trigger_sets_end_signal (steps : List Step) :
    ∀ s : LoopState, hasTrigger s steps = true →
      (run s steps).end_signal_sent = true := by
  induction steps with
  | nil => intro s h; simp [hasTrigger] at h
  | cons i rest ih =>
      intro s h
      unfold hasTrigger at h
      unfold run
      split at h
      · exact absurd h (by simp)
      · next hlive =>
          rw [if_neg hlive]
          simp only [Bool.or_eq_true, Bool.and_eq_true] at h
          rcases h with hstop | ⟨hnf, hdis⟩
          · have hset : (markerPhase i.should_stop s).end_signal_sent
                = true := by
              rw [hstop]
              exact markerPhase_true_sets s
            split
            · exact hset
            · exact end_signal_mono_run rest _
                (end_signal_mono_selectStep i.ev _ hset)
          · have hnf2 : (markerPhase i.should_stop s).session_finished
                = false := by simpa using hnf
            rw [if_neg (by simp [hnf2])]
            rcases hdis with hclose | htr
            · simp only [Bool.and_eq_true, beq_iff_eq] at hclose
              have hopen : (markerPhase i.should_stop s).audio_channel_closed
                  = false := by simpa using hclose.2
              rw [hclose.1]
              exact end_signal_mono_run rest _
                (audioClosed_sets_end_signal _ hopen)
            · exact ih _ htr

/-- C6: in every run of the loop, across both trigger paths (stop signal
read true, audio frame source exhausted), the empty-text end marker is
sent at most once and the 5 second finalize timer is armed at most once;
when a trigger occurs in the run, each happens exactly once. -/
theorem end_marker_sent_at_most_once (steps : List Step) :
    (run initLoopState steps).endMarkersSent ≤ 1
    ∧ (run initLoopState steps).timerArms ≤ 1
    ∧ (hasTrigger initLoopState steps = true →
        (run initLoopState steps).endMarkersSent = 1
        ∧ (run initLoopState steps).timerArms = 1) := by
  obtain ⟨a, b, c, d, e⟩ := markerInv_run steps initLoopState markerInv_init
  refine ⟨a, by omega, ?_⟩
  intro htr
  have hs := trigger_sets_end_signal steps initLoopState htr
  have h1 := c.mp hs
  exact ⟨h1, by omega⟩

/-- C6 witness: a run whose single step reads the stop signal as true. -/
theorem end_marker_sent_at_most_once_witness :
    hasTrigger initLoopState [Step.mk true (LoopEvent.ws WsEvent.other)]
        = true
    ∧ (run initLoopState
        [Step.mk true (LoopEvent.ws WsEvent.other)]).endMarkersSent = 1
    ∧ (run initLoopState
        [Step.mk true (LoopEvent.ws WsEvent.other)]).timerArms = 1 :=
  ⟨by decide,
   (end_marker_sent_at_most_once
      [Step.mk true (LoopEvent.ws WsEvent.other)]).2.2 (by decide)⟩

/-- C7: the finalize-timeout select arm is guarded so it can fire only
after the end marker was sent and before a finished response was seen;
when it fires the loop terminates and ignores all further steps; the
timer is armed with the constant 5 seconds. -/
theorem finalize_timeout_termination (s : LoopState) (steps : List Step)
    (h : timeoutEnabled s = true) :
    s.end_signal_sent = true
    ∧ s.session_finished = false
    ∧ (selectStep LoopEvent.timeout s).is_transcribing = false
    ∧ run (selectStep LoopEvent.timeout s) steps
        = selectStep LoopEvent.timeout s
    ∧ (sendEndMarker s).timerDurationSecs = some FINISH_TIMEOUT_SECS
    ∧ FINISH_TIMEOUT_SECS = 5 := by
  have h2 := h
  simp only [timeoutEnabled, Bool.and_eq_true, Bool.not_eq_true'] at h2
  have hstop : (selectStep LoopEvent.timeout s).is_transcribing = false := by
    simp [selectStep, h]
  exact ⟨h2.1, h2.2, hstop, run_halted _ steps hstop, rfl, rfl⟩

/-- C7 witness: the theorem applied right after an end marker was sent
from the initial state. -/
theorem finalize_timeout_termination_witness :
    timeoutEnabled (sendEndMarker initLoopState) = true
    ∧ (selectStep LoopEvent.timeout
        (sendEndMarker initLoopState)).is_transcribing = false :=
  ⟨by decide,
   (finalize_timeout_termination (sendEndMarker initLoopState) []
      (by decide)).2.2.1⟩

/-- C8: evaluated at a device whose default sample format is none of
F32, I16, U16: the capture thread fails with the configuration error,
yet the network session is still attempted, and the overall result of
start_audio_capture is the transcription result, not the thread error. -/
theorem unsupported_format_thread_error_dropped :
    (start_audio_capture
        { hasInputDevice := true, defaultConfigErr := none,
          sampleFormat := SampleFormat.other, buildErr := none,
          playErr := none } none []).connectAttempted = true
    ∧ (start_audio_capture
        { hasInputDevice := true, defaultConfigErr := none,
          sampleFormat := SampleFormat.other, buildErr := none,
          playErr := none } none []).threadResult
      = some (Except.error "Unsupported sample format".toList)
    ∧ (start_audio_capture
        { hasInputDevice := true, defaultConfigErr := none,
          sampleFormat := SampleFormat.other, buildErr := none,
          playErr := none } none []).result
      = Except.ok initLoopState :=
  ⟨rfl, rfl, rfl⟩

/-- C9 counterexample: a mid-stream read error only emits a
transcription-error event; the loop stays live and the overall session
result is Ok, not an error. -/
theorem read_error_continues_loop :
    (run initLoopState
        [Step.mk false (LoopEvent.ws (WsEvent.readErr "io error".toList))]
      ).is_transcribing = true
    ∧ (run initLoopState
        [Step.mk false (LoopEvent.ws (WsEvent.readErr "io error".toList))]
      ).emitted
      = [EmittedEvent.transcriptionError "io error".toList]
    ∧ connectAndTranscribe none
        [Step.mk false (LoopEvent.ws (WsEvent.readErr "io error".toList))]
      = Except.ok (run initLoopState
          [Step.mk false
            (LoopEvent.ws (WsEvent.readErr "io error".toList))]) :=
  ⟨by decide, by decide, rfl⟩

/-- C9 amended: a mid-stream read error emits a transcription-error
event and the loop keeps both duties running; the session ends on a
later close frame or end of stream, and the connected session always
returns Ok, so the read error is never the session result; no reconnect
exists in the model. -/
theorem read_error_nonfatal_behavior (s : LoopState) (e : Str)
    (steps : List Step) :
    (selectStep (LoopEvent.ws (WsEvent.readErr e)) s).is_transcribing
        = s.is_transcribing
    ∧ (selectStep (LoopEvent.ws (WsEvent.readErr e)) s).emitted
        = s.emitted ++ [EmittedEvent.transcriptionError e]
    ∧ (selectStep (LoopEvent.ws WsEvent.close) s).is_transcribing = false
    ∧ (selectStep (LoopEvent.ws WsEvent.ended) s).is_transcribing = false
    ∧ connectAndTranscribe none steps
        = Except.ok (run initLoopState steps) :=
  ⟨rfl, rfl, rfl, rfl, rfl⟩

end DD
